import Mathlib

/-!
Shallow embedding of the `redshadeutils` sprite packer
(`src/packer.rs`, `src/aseprite.rs`, `src/wl_atlas.rs`).

Rust `u32` fields are modelled as `Nat`, `i32` fields as `Int`
(a `u32` value cast with `as i32` goes through `u32_as_i32`).
File-system reads are modelled by explicit fetch functions; a `None`
result stands for an I/O or parse failure.  `anyhow::Result` becomes
`Except String`.
-/

namespace RedShade

/-- `as i32` cast of a decoded `u32` value (two's complement wrap). -/
def u32_as_i32 (n : Nat) : Int :=
  if n < 2 ^ 31 then (n : Int) else (n : Int) - 2 ^ 32

/-! ## `wl_atlas.rs` data model -/

structure WLPoint where
  x : Int
  y : Int
deriving DecidableEq, Repr

structure WLRect where
  x : Int
  y : Int
  w : Int
  h : Int
deriving DecidableEq, Repr

structure WLFrame where
  rect : WLRect
  duration : Nat
deriving DecidableEq, Repr

structure WLAnimation where
  animation_id : String
  frames : List Nat
deriving DecidableEq, Repr

structure WLModel where
  frames : List WLFrame
  animations : List WLAnimation
  model_id : String
  anchor_point : WLPoint
deriving DecidableEq, Repr

structure WLAtlas where
  models : List WLModel
deriving DecidableEq, Repr

/-! ## `aseprite.rs` data model -/

structure AsepriteRect where
  x : Int
  y : Int
  w : Int
  h : Int
deriving DecidableEq, Repr

structure AsepriteDataFrame where
  rect : AsepriteRect
  duration : Nat
deriving DecidableEq, Repr

structure AsepriteFrameTag where
  name : String
  from_ : Nat
  to_ : Nat
deriving DecidableEq, Repr

structure AsepriteDataMeta where
  image_path : String
  tags : List AsepriteFrameTag
deriving DecidableEq, Repr

structure AsepriteDataFile where
  frames : List AsepriteDataFrame
  meta : AsepriteDataMeta
deriving DecidableEq, Repr

/-! ## `packer.rs` data model -/

structure Point where
  x : Int
  y : Int
deriving DecidableEq, Repr

inductive IndexEntry where
  | Pixel (model_id : String) (data_file : String) (anchor_point : Point)
  | Graphic (model_id : String) (image_file : String)
deriving DecidableEq, Repr

def IndexEntry.model_id : IndexEntry → String
  | .Pixel mid _ _ => mid
  | .Graphic mid _ => mid

/-! ## Normalizer paths -/

/-- Rust `tag.name.strip_prefix("a_")`: `some` of the remainder when the
name starts with the marker `"a_"` (2 characters), `none` otherwise.
Strings are compared at the character level (`String.data`). -/
def stripAnimMarker (s : String) : Option String :=
  if "a_".data.isPrefixOf s.data then some (String.mk (s.data.drop 2)) else none

/-- Whether a tag name qualifies as an animation marker (starts with `"a_"`). -/
def marksAnim (s : String) : Bool := "a_".data.isPrefixOf s.data

/-- Rust `(tag.from..=tag.to).collect::<Vec<_>>()`: the ascending
inclusive range `[a, a+1, ..., b]`, empty when `a > b`. -/
def rangeIncl (a b : Nat) : List Nat :=
  List.range' a (b + 1 - a)

/-- `gen_wl_model_from_png`, after the file has been opened and its
header decoded to `width`/`height` (the two fallible I/O steps of the
Rust function are the caller-supplied decode; the rest is pure). -/
def gen_wl_model_from_png (model_id : String) (width height : Nat) : WLModel :=
  { anchor_point := { x := 0, y := 0 }
    model_id := model_id
    frames := [ { duration := 1000
                  rect := { x := 0, y := 0
                            w := u32_as_i32 width
                            h := u32_as_i32 height } } ]
    animations := [ { animation_id := "idle", frames := [0] } ] }

/-- The animation pipeline of `gen_wl_model_from_ase_data` (the
`let animations = ...` binding): keep the tags whose name strips by the
`"a_"` marker, pair each with its stripped identifier, and turn each
pair into a `WLAnimation` over the tag's inclusive range. -/
def tagAnims (tags : List AsepriteFrameTag) : List WLAnimation :=
  (tags.filterMap
      (fun tag => (stripAnimMarker tag.name).map (fun s => (s, tag)))).map
    (fun p => { animation_id := p.1
                frames := rangeIncl p.2.from_ p.2.to_ : WLAnimation })

/-- The frame conversion of `gen_wl_model_from_ase_data`
(`ase_data.frames.into_iter().map(...)`). -/
def aseFramesToWL (frames : List AsepriteDataFrame) : List WLFrame :=
  frames.map (fun frame =>
    { duration := frame.duration
      rect := { x := frame.rect.x, y := frame.rect.y
                w := frame.rect.w, h := frame.rect.h } })

/-- `gen_wl_model_from_ase_data` from `packer.rs`. -/
def gen_wl_model_from_ase_data (ase_data : AsepriteDataFile)
    (model_id : String) (anchor_point : Point) : Except String WLModel :=
  let animations := tagAnims ase_data.meta.tags
  let mkModel : List WLAnimation → WLModel := fun anims =>
    { anchor_point := { x := anchor_point.x, y := anchor_point.y }
      model_id := model_id
      frames := aseFramesToWL ase_data.frames
      animations := anims }
  if animations.isEmpty then
    if ase_data.frames.length > 1 then
      Except.error ("model_id " ++ model_id ++ " has "
        ++ toString ase_data.frames.length
        ++ " frames but 0 animations, can\x27t use default idle with 1 frame")
    else
      Except.ok (mkModel [ { animation_id := "idle", frames := [0] } ])
  else
    Except.ok (mkModel animations)

/-! ## Archive emitter (`write_zip`) -/

/-- Name of a model's image entry in the archive: `format!("{}.png", model_id)`. -/
def pngEntryName (model_id : String) : String := model_id ++ ".png"

/-- File-system paths, as component lists (`PathBuf` with `pop`/`push`). -/
abbrev FsPath := List String

def pathPop (p : FsPath) : FsPath := p.dropLast

def pathPush (p : FsPath) (c : String) : FsPath := p ++ [c]

/-- The guard error of `write_zip`: raised for a model with an empty
animation list but more than one frame, naming the model identifier and
the observed frame count. -/
def zipGuardMsg (model_id : String) (frame_count : Nat) : String :=
  "model_id \"" ++ model_id ++ "\" has a data file with "
    ++ toString frame_count ++ " frames but 0 animations"

/-- The per-model loop of `write_zip` over
`atlas_content.models.iter().zip(image_paths.iter())`.  Returns the
archive entries written by the loop and the error, if any, raised at
the first model whose animation list is empty while it has more than
one frame (that model's image entry, and all later ones, are not
written). -/
def write_zip_go : List (WLModel × FsPath) → List String × Option String
  | [] => ([], none)
  | (model, _image_path) :: rest =>
    if model.animations.length = 0 then
      if model.frames.length > 1 then
        ([], some (zipGuardMsg model.model_id model.frames.length))
      else
        match write_zip_go rest with
        | (entries, err) => (pngEntryName model.model_id :: entries, err)
    else
      match write_zip_go rest with
      | (entries, err) => (pngEntryName model.model_id :: entries, err)

/-- `write_zip`: writes `index.json` first, then one image entry per
model in atlas order.  Model: the list of archive entry names written,
and the guard error if one was raised. -/
def write_zip (image_paths : List FsPath) (atlas_content : WLAtlas) :
    List String × Option String :=
  match write_zip_go (atlas_content.models.zip image_paths) with
  | (entries, err) => ("index.json" :: entries, err)

/-! ## Index resolver (`main` loop) -/

/-- The per-entry loop of `main`: resolves paths relative to the index
file, fetches and parses the referenced files (`fetchAse` models
`File::open` + `serde_json::from_reader` on the data file, `fetchPng`
models opening the image and decoding its header to `(width, height)`;
`none` is a read/parse failure), and collects models and image paths
in manifest order, aborting on the first failure. -/
def processIndex (index_file_path : FsPath)
    (fetchAse : FsPath → Option AsepriteDataFile)
    (fetchPng : FsPath → Option (Nat × Nat)) :
    List IndexEntry → Except String (List WLModel × List FsPath)
  | [] => Except.ok ([], [])
  | .Pixel model_id data_file anchor_point :: rest =>
    let json_data_path := pathPush (pathPop index_file_path) data_file
    match fetchAse json_data_path with
    | none => Except.error ("failed to read json file at "
        ++ String.intercalate "/" json_data_path)
    | some ase_data =>
      let image_path := pathPush (pathPop json_data_path) ase_data.meta.image_path
      match gen_wl_model_from_ase_data ase_data model_id anchor_point with
      | Except.error e => Except.error e
      | Except.ok m =>
        match processIndex index_file_path fetchAse fetchPng rest with
        | Except.error e => Except.error e
        | Except.ok (ms, ps) => Except.ok (m :: ms, image_path :: ps)
  | .Graphic model_id image_file :: rest =>
    let image_path := pathPush (pathPop index_file_path) image_file
    match fetchPng image_path with
    | none => Except.error ("failed to open png file at "
        ++ String.intercalate "/" image_path)
    | some (w, h) =>
      let m := gen_wl_model_from_png model_id w h
      match processIndex index_file_path fetchAse fetchPng rest with
      | Except.error e => Except.error e
      | Except.ok (ms, ps) => Except.ok (m :: ms, image_path :: ps)

/-- Whole run after argument parsing: resolve the manifest, then hand the
collected models and the parallel image-path list to `write_zip`. -/
def run_pack (index_file_path : FsPath)
    (fetchAse : FsPath → Option AsepriteDataFile)
    (fetchPng : FsPath → Option (Nat × Nat))
    (entries : List IndexEntry) : Except String (List String × Option String) :=
  match processIndex index_file_path fetchAse fetchPng entries with
  | Except.error e => Except.error e
  | Except.ok (ms, ps) => Except.ok (write_zip ps { models := ms })

/-- The UniformModel invariant stated in the spec's data model section:
non-empty animation lists only reference valid frame positions, and an
empty animation list forces at most one frame. -/
def modelInvariant (m : WLModel) : Prop :=
  (m.animations ≠ [] →
    ∀ a ∈ m.animations, ∀ i ∈ a.frames, i < m.frames.length) ∧
  (m.animations = [] → m.frames.length ≤ 1)

instance (m : WLModel) : Decidable (modelInvariant m) := by
  unfold modelInvariant
  infer_instance

/-! ## Helper lemmas -/

theorem stripAnimMarker_eq_none {s : String} (h : marksAnim s = false) :
    stripAnimMarker s = none := by
  simp only [marksAnim] at h
  simp [stripAnimMarker, h]

theorem stripAnimMarker_eq_some {s : String} (h : marksAnim s = true) :
    stripAnimMarker s = some (String.mk (s.data.drop 2)) := by
  simp only [marksAnim] at h
  simp [stripAnimMarker, h]

theorem tagAnims_nil : tagAnims [] = [] := rfl

theorem tagAnims_cons_of_marks {t : AsepriteFrameTag} {ts : List AsepriteFrameTag}
    (h : marksAnim t.name = true) :
    tagAnims (t :: ts) =
      { animation_id := String.mk (t.name.data.drop 2)
        frames := rangeIncl t.from_ t.to_ } :: tagAnims ts := by
  simp [tagAnims, List.filterMap_cons, stripAnimMarker_eq_some h]

theorem tagAnims_cons_of_not_marks {t : AsepriteFrameTag} {ts : List AsepriteFrameTag}
    (h : marksAnim t.name = false) :
    tagAnims (t :: ts) = tagAnims ts := by
  simp [tagAnims, List.filterMap_cons, stripAnimMarker_eq_none h]

theorem tagAnims_eq_nil_iff {ts : List AsepriteFrameTag} :
    tagAnims ts = [] ↔ ∀ t ∈ ts, marksAnim t.name = false := by
  induction ts with
  | nil => simp [tagAnims_nil]
  | cons t ts ih =>
    cases h : marksAnim t.name with
    | false => simp [tagAnims_cons_of_not_marks h, ih, h]
    | true => simp [tagAnims_cons_of_marks h, h]

theorem tagAnims_ids {ts : List AsepriteFrameTag} :
    (tagAnims ts).map (fun a => a.animation_id) =
      (ts.filter (fun t => marksAnim t.name)).map
        (fun t => String.mk (t.name.data.drop 2)) := by
  induction ts with
  | nil => simp [tagAnims_nil]
  | cons t ts ih =>
    cases h : marksAnim t.name with
    | false => simp [tagAnims_cons_of_not_marks h, List.filter_cons, h, ih]
    | true => simp [tagAnims_cons_of_marks h, List.filter_cons, h, ih]

theorem tagAnims_length {ts : List AsepriteFrameTag} :
    (tagAnims ts).length = (ts.filter (fun t => marksAnim t.name)).length := by
  have := congrArg List.length (@tagAnims_ids ts)
  simpa using this

theorem mem_tagAnims {ts : List AsepriteFrameTag} {a : WLAnimation} :
    a ∈ tagAnims ts ↔
      ∃ t ∈ ts, marksAnim t.name = true ∧
        a = { animation_id := String.mk (t.name.data.drop 2)
              frames := rangeIncl t.from_ t.to_ } := by
  induction ts with
  | nil => simp [tagAnims_nil]
  | cons t ts ih =>
    cases h : marksAnim t.name with
    | false =>
      rw [tagAnims_cons_of_not_marks h, ih]
      constructor
      · rintro ⟨u, hu, hm, he⟩; exact ⟨u, List.mem_cons_of_mem _ hu, hm, he⟩
      · rintro ⟨u, hu, hm, he⟩
        rcases List.mem_cons.mp hu with rfl | hu'
        · rw [hm] at h; cases h
        · exact ⟨u, hu', hm, he⟩
    | true =>
      rw [tagAnims_cons_of_marks h, List.mem_cons, ih]
      constructor
      · rintro (rfl | ⟨u, hu, hm, he⟩)
        · exact ⟨t, List.mem_cons_self t ts, h, rfl⟩
        · exact ⟨u, List.mem_cons_of_mem _ hu, hm, he⟩
      · rintro ⟨u, hu, hm, he⟩
        rcases List.mem_cons.mp hu with rfl | hu'
        · exact Or.inl he
        · exact Or.inr ⟨u, hu', hm, he⟩

/-- Unfolding of the sprite-sheet path when no tag qualifies and the
source has more than one frame: the validation error. -/
theorem gen_ase_error {ase : AsepriteDataFile} {mid : String} {ap : Point}
    (h1 : tagAnims ase.meta.tags = []) (h2 : ase.frames.length > 1) :
    gen_wl_model_from_ase_data ase mid ap =
      Except.error ("model_id " ++ mid ++ " has "
        ++ toString ase.frames.length
        ++ " frames but 0 animations, can\x27t use default idle with 1 frame") := by
  simp [gen_wl_model_from_ase_data, h1, h2]

/-- Unfolding of the sprite-sheet path when no tag qualifies and the
source has at most one frame: the fallback `"idle"` animation. -/
theorem gen_ase_fallback {ase : AsepriteDataFile} {mid : String} {ap : Point}
    (h1 : tagAnims ase.meta.tags = []) (h2 : ¬ ase.frames.length > 1) :
    gen_wl_model_from_ase_data ase mid ap =
      Except.ok
        { anchor_point := { x := ap.x, y := ap.y }
          model_id := mid
          frames := aseFramesToWL ase.frames
          animations := [ { animation_id := "idle", frames := [0] } ] } := by
  simp [gen_wl_model_from_ase_data, h1, h2]

/-- Unfolding of the sprite-sheet path when at least one tag qualifies:
the declared animation list is kept as-is. -/
theorem gen_ase_tags {ase : AsepriteDataFile} {mid : String} {ap : Point}
    (h1 : tagAnims ase.meta.tags ≠ []) :
    gen_wl_model_from_ase_data ase mid ap =
      Except.ok
        { anchor_point := { x := ap.x, y := ap.y }
          model_id := mid
          frames := aseFramesToWL ase.frames
          animations := tagAnims ase.meta.tags } := by
  simp [gen_wl_model_from_ase_data, h1]

/-- Any model returned by the sprite-sheet path has a non-empty
animation list. -/
theorem gen_ase_animations_ne_nil {ase : AsepriteDataFile} {mid : String}
    {ap : Point} {m : WLModel}
    (hm : gen_wl_model_from_ase_data ase mid ap = Except.ok m) :
    m.animations ≠ [] := by
  by_cases h1 : tagAnims ase.meta.tags = []
  · by_cases h2 : ase.frames.length > 1
    · rw [gen_ase_error h1 h2] at hm; cases hm
    · rw [gen_ase_fallback h1 h2] at hm
      cases hm
      simp
  · rw [gen_ase_tags h1] at hm
    cases hm
    simpa using h1

/-- Any model returned by the static-image path has a non-empty
animation list. -/
theorem gen_png_animations_ne_nil (mid : String) (w h : Nat) :
    (gen_wl_model_from_png mid w h).animations ≠ [] := by
  simp [gen_wl_model_from_png]

/-- The sprite-sheet path passes the model identifier through. -/
theorem gen_ase_model_id {ase : AsepriteDataFile} {mid : String}
    {ap : Point} {m : WLModel}
    (hm : gen_wl_model_from_ase_data ase mid ap = Except.ok m) :
    m.model_id = mid := by
  by_cases h1 : tagAnims ase.meta.tags = []
  · by_cases h2 : ase.frames.length > 1
    · rw [gen_ase_error h1 h2] at hm; cases hm
    · rw [gen_ase_fallback h1 h2] at hm; cases hm; rfl
  · rw [gen_ase_tags h1] at hm; cases hm; rfl

/-- The entries/error components of `write_zip_go` when every model's
animation list is non-empty: every image entry is written, no error. -/
theorem write_zip_go_of_anims_ne_nil (pairs : List (WLModel × FsPath))
    (h : ∀ p ∈ pairs, p.1.animations ≠ []) :
    write_zip_go pairs =
      (pairs.map (fun p => pngEntryName p.1.model_id), none) := by
  induction pairs with
  | nil => rfl
  | cons p rest ih =>
    obtain ⟨m, ip⟩ := p
    have hm : m.animations ≠ [] := h (m, ip) (List.mem_cons_self _ _)
    have hlen : ¬ m.animations.length = 0 := by
      simpa [List.length_eq_zero] using hm
    simp [write_zip_go, hlen,
      ih (fun q hq => h q (List.mem_cons_of_mem _ hq))]

/-! ## Claim theorems -/

/-- C1: a sprite-sheet input with no prefix-recognized animation tag and
at least two source frames makes `gen_wl_model_from_ase_data` fail with
the validation error; no `WLModel` is produced for it. -/
theorem claim1_no_tags_multi_frame_fails (ase : AsepriteDataFile)
    (mid : String) (ap : Point)
    (hq : ∀ t ∈ ase.meta.tags, marksAnim t.name = false)
    (hf : 2 ≤ ase.frames.length) :
    (∃ e, gen_wl_model_from_ase_data ase mid ap = Except.error e) ∧
      ∀ m, gen_wl_model_from_ase_data ase mid ap ≠ Except.ok m := by
  have h1 : tagAnims ase.meta.tags = [] := tagAnims_eq_nil_iff.mpr hq
  have h2 : ase.frames.length > 1 := by omega
  refine ⟨⟨_, gen_ase_error h1 h2⟩, fun m hm => ?_⟩
  rw [gen_ase_error h1 h2] at hm
  cases hm

theorem claim1_witness :
    ((∃ e, gen_wl_model_from_ase_data
        ⟨[⟨⟨0, 0, 8, 8⟩, 100⟩, ⟨⟨8, 0, 8, 8⟩, 100⟩], ⟨"i.png", [⟨"hit", 0, 1⟩]⟩⟩
        "m" ⟨0, 0⟩ = Except.error e) ∧
      ∀ m, gen_wl_model_from_ase_data
        ⟨[⟨⟨0, 0, 8, 8⟩, 100⟩, ⟨⟨8, 0, 8, 8⟩, 100⟩], ⟨"i.png", [⟨"hit", 0, 1⟩]⟩⟩
        "m" ⟨0, 0⟩ ≠ Except.ok m) :=
  claim1_no_tags_multi_frame_fails _ _ _ (by decide) (by decide)

/-- C2: a sprite-sheet input with exactly one source frame and no
prefix-recognized animation tag yields a model whose animation list is
exactly the fallback `"idle"` animation over frame sequence `[0]`. -/
theorem claim2_single_frame_idle_fallback (ase : AsepriteDataFile)
    (mid : String) (ap : Point)
    (hq : ∀ t ∈ ase.meta.tags, marksAnim t.name = false)
    (hf : ase.frames.length = 1) :
    ∃ m, gen_wl_model_from_ase_data ase mid ap = Except.ok m ∧
      m.animations = [ { animation_id := "idle", frames := [0] } ] := by
  have h1 : tagAnims ase.meta.tags = [] := tagAnims_eq_nil_iff.mpr hq
  exact ⟨_, gen_ase_fallback h1 (by omega), rfl⟩

theorem claim2_witness :
    ∃ m, gen_wl_model_from_ase_data
        ⟨[⟨⟨0, 0, 8, 8⟩, 100⟩], ⟨"i.png", [⟨"hit", 0, 0⟩]⟩⟩ "m" ⟨3, 4⟩ =
        Except.ok m ∧
      m.animations = [ { animation_id := "idle", frames := [0] } ] :=
  claim2_single_frame_idle_fallback _ _ _ (by decide) (by decide)

/-- C6: a static image whose header decodes to `width`/`height` yields a
model with exactly one frame `(0, 0, width, height)` of duration 1000,
exactly one `"idle"` animation over `[0]`, and anchor `(0, 0)`.  (The
PNG format caps dimensions at `2^31 - 1`, so the `as i32` cast is the
identity on decodable headers.) -/
theorem claim6_png_model (mid : String) (width height : Nat)
    (hw : width < 2 ^ 31) (hh : height < 2 ^ 31) :
    gen_wl_model_from_png mid width height =
      { frames := [ { rect := { x := 0, y := 0, w := (width : Int), h := (height : Int) }
                      duration := 1000 } ]
        animations := [ { animation_id := "idle", frames := [0] } ]
        model_id := mid
        anchor_point := { x := 0, y := 0 } } := by
  simp only [gen_wl_model_from_png, u32_as_i32]
  rw [if_pos (by omega), if_pos (by omega)]

theorem claim6_witness :
    gen_wl_model_from_png "rock" 32 32 =
      { frames := [ { rect := { x := 0, y := 0, w := 32, h := 32 }
                      duration := 1000 } ]
        animations := [ { animation_id := "idle", frames := [0] } ]
        model_id := "rock"
        anchor_point := { x := 0, y := 0 } } :=
  claim6_png_model "rock" 32 32 (by decide) (by decide)

/-- C9: both normalizer paths only return models with a non-empty
animation list, and `write_zip` raises no error on a model list all of
whose members have non-empty animations, so its rejection branch is
unreachable for normalizer-produced models. -/
theorem claim9_animations_never_empty :
    (∀ (ase : AsepriteDataFile) (mid : String) (ap : Point) (m : WLModel),
      gen_wl_model_from_ase_data ase mid ap = Except.ok m →
        m.animations ≠ []) ∧
    (∀ (mid : String) (w h : Nat), (gen_wl_model_from_png mid w h).animations ≠ []) ∧
    (∀ (paths : List FsPath) (models : List WLModel),
      (∀ m ∈ models, m.animations ≠ []) →
        (write_zip paths { models := models }).2 = none) := by
  refine ⟨fun ase mid ap m hm => gen_ase_animations_ne_nil hm,
    fun mid w h => gen_png_animations_ne_nil mid w h, ?_⟩
  intro paths models h
  have hz : ∀ p ∈ models.zip paths, p.1.animations ≠ [] := by
    intro p hp
    exact h p.1 (List.of_mem_zip hp).1
  simp [write_zip, write_zip_go_of_anims_ne_nil _ hz]

/-- C10: a tag named exactly `"a_"` qualifies and produces an animation
whose identifier is the empty string; a tag whose name does not start
with `"a_"` (even if it contains it elsewhere) does not qualify and
contributes nothing. -/
theorem claim10_marker_qualification :
    (∀ (a b : Nat) (frames : List AsepriteDataFrame) (img mid : String) (ap : Point),
      ∃ m, gen_wl_model_from_ase_data ⟨frames, ⟨img, [⟨"a_", a, b⟩]⟩⟩ mid ap =
          Except.ok m ∧
        m.animations = [ { animation_id := "", frames := rangeIncl a b } ]) ∧
    (∀ (t : AsepriteFrameTag), marksAnim t.name = false →
      ∀ (f : AsepriteDataFrame) (img mid : String) (ap : Point),
        ∃ m, gen_wl_model_from_ase_data ⟨[f], ⟨img, [t]⟩⟩ mid ap = Except.ok m ∧
          m.animations = [ { animation_id := "idle", frames := [0] } ]) := by
  constructor
  · intro a b frames img mid ap
    have ht : tagAnims [⟨"a_", a, b⟩] =
        [ { animation_id := "", frames := rangeIncl a b } ] := by
      have hma : marksAnim "a_" = true := by decide
      rw [@tagAnims_cons_of_marks ⟨"a_", a, b⟩ [] hma, tagAnims_nil]
      have : String.mk ((("a_" : String).data).drop 2) = "" := by decide
      simp only [this]
    refine ⟨_, @gen_ase_tags ⟨frames, ⟨img, [⟨"a_", a, b⟩]⟩⟩ mid ap ?_, ?_⟩
    · simp [ht]
    · simp [ht]
  · intro t ht f img mid ap
    have h1 : tagAnims [t] = [] := by
      rw [tagAnims_cons_of_not_marks ht, tagAnims_nil]
    exact ⟨_, @gen_ase_fallback ⟨[f], ⟨img, [t]⟩⟩ mid ap h1 (by simp), rfl⟩

theorem claim10_witness :
    (∃ m, gen_wl_model_from_ase_data ⟨[], ⟨"i.png", [⟨"a_", 0, 1⟩]⟩⟩ "m" ⟨0, 0⟩ =
        Except.ok m ∧
      m.animations = [ { animation_id := "", frames := rangeIncl 0 1 } ]) ∧
    marksAnim "xa_y" = false ∧
    (∃ m, gen_wl_model_from_ase_data
        ⟨[⟨⟨0, 0, 1, 1⟩, 100⟩], ⟨"i.png", [⟨"xa_y", 0, 0⟩]⟩⟩ "m" ⟨0, 0⟩ =
        Except.ok m ∧
      m.animations = [ { animation_id := "idle", frames := [0] } ]) :=
  ⟨claim10_marker_qualification.1 0 1 [] "i.png" "m" ⟨0, 0⟩, by decide,
   claim10_marker_qualification.2 ⟨"xa_y", 0, 0⟩ (by decide)
     ⟨⟨0, 0, 1, 1⟩, 100⟩ "i.png" "m" ⟨0, 0⟩⟩

theorem length_zip_of_le {α β : Type} {l1 : List α} {l2 : List β}
    (h : l1.length ≤ l2.length) : (l1.zip l2).length = l1.length := by
  simp [List.length_zip]
  omega

theorem zip_get_fst {α β : Type} (l1 : List α) (l2 : List β)
    (i : Nat) (hi : i < l1.length) (hi2 : i < (l1.zip l2).length) :
    ((l1.zip l2).get ⟨i, hi2⟩).1 = l1.get ⟨i, hi⟩ := by
  simp [List.get_eq_getElem, List.getElem_zip]

theorem zip_take_map_fst {α β γ : Type} (f : α → γ) :
    ∀ (l1 : List α) (l2 : List β), l1.length ≤ l2.length → ∀ (i : Nat),
      ((l1.zip l2).take i).map (fun p => f p.1) = (l1.map f).take i := by
  intro l1
  induction l1 with
  | nil => simp
  | cons a l1 ih =>
    intro l2 hlen i
    cases l2 with
    | nil => simp at hlen
    | cons b l2 =>
      cases i with
      | zero => simp
      | succ i' =>
        simp only [List.zip_cons_cons, List.take_succ_cons, List.map_cons]
        rw [ih l2 (by simpa using hlen) i']

/-- `write_zip_go` at the first model violating the guard (index `i`,
all earlier models pass): the loop has written exactly the image
entries of the models before `i` and stops with the guard error for
model `i`. -/
theorem write_zip_go_first_bad (pairs : List (WLModel × FsPath)) :
    ∀ (i : Nat) (hi : i < pairs.length),
      (pairs.get ⟨i, hi⟩).1.animations.length = 0 →
      (pairs.get ⟨i, hi⟩).1.frames.length > 1 →
      (∀ j (hj : j < i),
        ¬ ((pairs.get ⟨j, Nat.lt_trans hj hi⟩).1.animations.length = 0 ∧
          (pairs.get ⟨j, Nat.lt_trans hj hi⟩).1.frames.length > 1)) →
      write_zip_go pairs =
        ((pairs.take i).map (fun p => pngEntryName p.1.model_id),
          some (zipGuardMsg (pairs.get ⟨i, hi⟩).1.model_id
            (pairs.get ⟨i, hi⟩).1.frames.length)) := by
  induction pairs with
  | nil => intro i hi; simp at hi
  | cons p rest ih =>
    intro i hi ha hf hfirst
    obtain ⟨m, ip⟩ := p
    cases i with
    | zero =>
      have ha' : m.animations.length = 0 := ha
      have hf' : m.frames.length > 1 := hf
      simp [write_zip_go, ha', hf']
    | succ i' =>
      have hi' : i' < rest.length := Nat.lt_of_succ_lt_succ hi
      have hnotbad : ¬ (m.animations.length = 0 ∧ m.frames.length > 1) :=
        hfirst 0 (Nat.succ_pos i')
      have ha' : (rest.get ⟨i', hi'⟩).1.animations.length = 0 := ha
      have hf' : (rest.get ⟨i', hi'⟩).1.frames.length > 1 := hf
      have ihr := ih i' hi' ha' hf'
        (fun j hj => hfirst (j + 1) (Nat.succ_lt_succ hj))
      by_cases hb : m.animations.length = 0
      · have hb2 : ¬ m.frames.length > 1 := fun h2 => hnotbad ⟨hb, h2⟩
        simp [write_zip_go, hb, hb2, ihr, List.take_succ_cons]
      · simp [write_zip_go, hb, ihr, List.take_succ_cons]

/-- C7: handed a model with an empty animation list and more than one
frame (the first such, at position `i`), `write_zip` stops with the
guard error naming that model's identifier and frame count; the archive
holds `index.json` and only the image entries of the models before `i`,
not that model's. -/
theorem claim7_emitter_rejects (paths : List FsPath) (models : List WLModel)
    (hlen : models.length ≤ paths.length)
    (i : Nat) (hi : i < models.length)
    (ha : (models.get ⟨i, hi⟩).animations = [])
    (hf : 1 < (models.get ⟨i, hi⟩).frames.length)
    (hfirst : ∀ j (hj : j < i),
      ¬ ((models.get ⟨j, Nat.lt_trans hj hi⟩).animations = [] ∧
        1 < (models.get ⟨j, Nat.lt_trans hj hi⟩).frames.length)) :
    write_zip paths { models := models } =
      ("index.json" :: ((models.map (fun m => pngEntryName m.model_id)).take i),
        some (zipGuardMsg (models.get ⟨i, hi⟩).model_id
          (models.get ⟨i, hi⟩).frames.length)) := by
  have hzlen : (models.zip paths).length = models.length := length_zip_of_le hlen
  have hi2 : i < (models.zip paths).length := by rwa [hzlen]
  have hget : ∀ (j : Nat) (hj : j < models.length) (hj2 : j < (models.zip paths).length),
      ((models.zip paths).get ⟨j, hj2⟩).1 = models.get ⟨j, hj⟩ :=
    fun j hj hj2 => zip_get_fst models paths j hj hj2
  have hgo := write_zip_go_first_bad (models.zip paths) i hi2
    (by rw [hget i hi hi2, ha]; rfl)
    (by rw [hget i hi hi2]; exact hf)
    (fun j hj => by
      rw [hget j (Nat.lt_trans hj hi) (Nat.lt_trans hj hi2)]
      intro hcontra
      exact hfirst j hj ⟨List.length_eq_zero.mp hcontra.1, hcontra.2⟩)
  simp only [write_zip, hgo]
  rw [zip_take_map_fst (fun m => pngEntryName m.model_id) models paths hlen i,
    hget i hi hi2]

theorem claim7_witness :
    write_zip [["img1"], ["img2"]]
        { models := [ ⟨[⟨⟨0, 0, 1, 1⟩, 10⟩], [⟨"idle", [0]⟩], "good", ⟨0, 0⟩⟩,
                      ⟨[⟨⟨0, 0, 1, 1⟩, 10⟩, ⟨⟨1, 0, 1, 1⟩, 10⟩], [], "bad", ⟨0, 0⟩⟩ ] } =
      (["index.json", "good.png"], some (zipGuardMsg "bad" 2)) :=
  claim7_emitter_rejects [["img1"], ["img2"]]
    [ ⟨[⟨⟨0, 0, 1, 1⟩, 10⟩], [⟨"idle", [0]⟩], "good", ⟨0, 0⟩⟩,
      ⟨[⟨⟨0, 0, 1, 1⟩, 10⟩, ⟨⟨1, 0, 1, 1⟩, 10⟩], [], "bad", ⟨0, 0⟩⟩ ]
    (Nat.le_refl 2) 1 (Nat.succ_lt_succ (Nat.succ_pos 0)) rfl
    (Nat.succ_lt_succ (Nat.succ_pos 0))
    (fun j hj => by
      have hj0 : j = 0 := by omega
      subst hj0
      simp)

theorem zip_map_fst {α β γ : Type} (f : α → γ) :
    ∀ (l1 : List α) (l2 : List β), l1.length ≤ l2.length →
      (l1.zip l2).map (fun p => f p.1) = l1.map f := by
  intro l1
  induction l1 with
  | nil => simp
  | cons a l1 ih =>
    intro l2 hlen
    cases l2 with
    | nil => simp at hlen
    | cons b l2 =>
      simp only [List.zip_cons_cons, List.map_cons]
      rw [ih l2 (by simpa using hlen)]

/-- What a successful resolver pass guarantees: the collected models
carry the manifest's model identifiers in manifest order, the image
path list is parallel to the manifest, and every collected model has a
non-empty animation list. -/
theorem processIndex_ok (ip : FsPath)
    (fa : FsPath → Option AsepriteDataFile) (fp : FsPath → Option (Nat × Nat)) :
    ∀ (entries : List IndexEntry) (ms : List WLModel) (ps : List FsPath),
      processIndex ip fa fp entries = Except.ok (ms, ps) →
      ms.map (fun m => m.model_id) = entries.map IndexEntry.model_id ∧
      ps.length = entries.length ∧
      ∀ m ∈ ms, m.animations ≠ [] := by
  intro entries
  induction entries with
  | nil =>
    intro ms ps h
    simp only [processIndex, Except.ok.injEq, Prod.mk.injEq] at h
    obtain ⟨h1, h2⟩ := h
    subst h1; subst h2
    simp
  | cons e rest ih =>
    intro ms ps h
    cases e with
    | Pixel mid df ap =>
      simp only [processIndex] at h
      split at h
      · cases h
      · rename_i ase hfa
        split at h
        · cases h
        · rename_i m hg
          split at h
          · cases h
          · rename_i ms' ps' hr
            simp only [Except.ok.injEq, Prod.mk.injEq] at h
            obtain ⟨h1, h2⟩ := h
            subst h1; subst h2
            obtain ⟨ih1, ih2, ih3⟩ := ih ms' ps' hr
            refine ⟨?_, ?_, ?_⟩
            · simp only [List.map_cons, ih1, IndexEntry.model_id,
                gen_ase_model_id hg]
            · simp [ih2]
            · intro m' hm'
              rcases List.mem_cons.mp hm' with rfl | hm''
              · exact gen_ase_animations_ne_nil hg
              · exact ih3 m' hm''
    | Graphic mid imgf =>
      simp only [processIndex] at h
      split at h
      · cases h
      · rename_i w ht hfp
        split at h
        · cases h
        · rename_i ms' ps' hr
          simp only [Except.ok.injEq, Prod.mk.injEq] at h
          obtain ⟨h1, h2⟩ := h
          subst h1; subst h2
          obtain ⟨ih1, ih2, ih3⟩ := ih ms' ps' hr
          refine ⟨?_, ?_, ?_⟩
          · simp only [List.map_cons, ih1, IndexEntry.model_id]
            rfl
          · simp [ih2]
          · intro m' hm'
            rcases List.mem_cons.mp hm' with rfl | hm''
            · exact gen_png_animations_ne_nil mid w ht
            · exact ih3 m' hm''

/-- C8: on a successfully processed manifest, the collected models carry
the manifest's model identifiers in manifest order, and the archive
consists of `index.json` followed by one image entry per manifest entry,
in manifest order, named by the entry's model identifier. -/
theorem claim8_order_preserved (ip : FsPath)
    (fa : FsPath → Option AsepriteDataFile) (fp : FsPath → Option (Nat × Nat))
    (entries : List IndexEntry) (ms : List WLModel) (ps : List FsPath)
    (h : processIndex ip fa fp entries = Except.ok (ms, ps)) :
    ms.map (fun m => m.model_id) = entries.map IndexEntry.model_id ∧
    write_zip ps { models := ms } =
      ("index.json" :: entries.map (fun e => pngEntryName e.model_id), none) := by
  obtain ⟨h1, h2, h3⟩ := processIndex_ok ip fa fp entries ms ps h
  have hml : ms.length = entries.length := by
    have := congrArg List.length h1
    simpa using this
  have hlen : ms.length ≤ ps.length := by omega
  have hz : ∀ p ∈ ms.zip ps, p.1.animations ≠ [] := by
    intro p hp
    exact h3 p.1 (List.of_mem_zip hp).1
  have hnames : ms.map (fun m => pngEntryName m.model_id) =
      entries.map (fun e => pngEntryName e.model_id) := by
    have := congrArg (List.map pngEntryName) h1
    simpa [List.map_map, Function.comp] using this
  refine ⟨h1, ?_⟩
  simp only [write_zip, write_zip_go_of_anims_ne_nil (ms.zip ps) hz]
  rw [zip_map_fst (fun m => pngEntryName m.model_id) ms ps hlen, hnames]

theorem claim8_witness :
    processIndex ["index.yaml"] (fun _ => none) (fun _ => some (32, 32))
        [IndexEntry.Graphic "rock" "rock.png"] =
      Except.ok ([gen_wl_model_from_png "rock" 32 32], [["rock.png"]]) ∧
    ([gen_wl_model_from_png "rock" 32 32].map (fun m => m.model_id) =
      [IndexEntry.Graphic "rock" "rock.png"].map IndexEntry.model_id ∧
    write_zip [["rock.png"]] { models := [gen_wl_model_from_png "rock" 32 32] } =
      ("index.json" ::
        [IndexEntry.Graphic "rock" "rock.png"].map (fun e => pngEntryName e.model_id),
        none)) :=
  ⟨rfl,
   claim8_order_preserved ["index.yaml"] (fun _ => none) (fun _ => some (32, 32))
     [IndexEntry.Graphic "rock" "rock.png"]
     [gen_wl_model_from_png "rock" 32 32] [["rock.png"]] rfl⟩

theorem claim9_witness :
    ((⟨[⟨⟨0, 0, 8, 8⟩, 100⟩], [⟨"idle", [0]⟩], "m", ⟨0, 0⟩⟩ : WLModel).animations ≠ []) ∧
    (gen_wl_model_from_png "p" 1 1).animations ≠ [] ∧
    (write_zip [["p"]]
      { models := [⟨[], [⟨"idle", [0]⟩], "x", ⟨0, 0⟩⟩] }).2 = none :=
  ⟨claim9_animations_never_empty.1 ⟨[⟨⟨0, 0, 8, 8⟩, 100⟩], ⟨"i.png", []⟩⟩
      "m" ⟨0, 0⟩ ⟨[⟨⟨0, 0, 8, 8⟩, 100⟩], [⟨"idle", [0]⟩], "m", ⟨0, 0⟩⟩ rfl,
   claim9_animations_never_empty.2.1 "p" 1 1,
   claim9_animations_never_empty.2.2 [["p"]] [⟨[], [⟨"idle", [0]⟩], "x", ⟨0, 0⟩⟩]
     (by decide)⟩

/-- C3 fails on the code: tag-declared frame indices are not validated
against the frame count.  A one-frame sheet with tag `a_walk` over
`[0, 3]` yields a model whose animation references frames 1–3, which do
not exist, violating the stated invariant. -/
theorem claim3_counterexample :
    gen_wl_model_from_ase_data
        ⟨[⟨⟨0, 0, 8, 8⟩, 100⟩], ⟨"i.png", [⟨"a_walk", 0, 3⟩]⟩⟩ "m" ⟨0, 0⟩ =
      Except.ok ⟨[⟨⟨0, 0, 8, 8⟩, 100⟩], [⟨"walk", [0, 1, 2, 3]⟩], "m", ⟨0, 0⟩⟩ ∧
    ¬ modelInvariant ⟨[⟨⟨0, 0, 8, 8⟩, 100⟩], [⟨"walk", [0, 1, 2, 3]⟩], "m", ⟨0, 0⟩⟩ :=
  ⟨rfl, by decide⟩

/-- C3 (amended): every normalizer-produced model has a non-empty
animation list, making the empty-animation clause of the invariant hold
vacuously; frame-index validity holds unconditionally on the
static-image path, and on the sprite-sheet path whenever the source has
at least one frame and every qualifying tag's `to` endpoint is below
the frame count — tag-declared indices themselves are passed through
unvalidated. -/
theorem claim3_amended :
    (∀ (ase : AsepriteDataFile) (mid : String) (ap : Point) (m : WLModel),
      gen_wl_model_from_ase_data ase mid ap = Except.ok m →
      m.animations ≠ [] ∧
      (1 ≤ ase.frames.length →
        (∀ t ∈ ase.meta.tags, marksAnim t.name = true → t.to_ < ase.frames.length) →
        modelInvariant m)) ∧
    (∀ (mid : String) (w h : Nat), modelInvariant (gen_wl_model_from_png mid w h)) := by
  constructor
  · intro ase mid ap m hm
    refine ⟨gen_ase_animations_ne_nil hm, fun hf hb => ?_⟩
    by_cases h1 : tagAnims ase.meta.tags = []
    · by_cases h2 : ase.frames.length > 1
      · rw [gen_ase_error h1 h2] at hm; cases hm
      · rw [gen_ase_fallback h1 h2] at hm
        cases hm
        constructor
        · intro _ a ha i hi
          rw [List.mem_singleton] at ha
          subst ha
          simp only [List.mem_singleton] at hi
          subst hi
          simp [aseFramesToWL]
          omega
        · intro hcon; cases hcon
    · rw [gen_ase_tags h1] at hm
      cases hm
      constructor
      · intro _ a ha i hi
        rw [mem_tagAnims] at ha
        obtain ⟨t, ht, hmk, rfl⟩ := ha
        simp only [rangeIncl] at hi
        rw [List.mem_range'_1] at hi
        have hto := hb t ht hmk
        simp only [aseFramesToWL, List.length_map]
        omega
      · intro hcon
        exact absurd hcon h1
  · intro mid w h
    constructor
    · intro _ a ha i hi
      simp only [gen_wl_model_from_png, List.mem_singleton] at ha ⊢
      subst ha
      simp only [List.mem_singleton] at hi
      subst hi
      simp
    · intro hcon
      simp [gen_wl_model_from_png] at hcon

theorem claim3_amended_witness :
    ((⟨[⟨⟨0, 0, 8, 8⟩, 100⟩, ⟨⟨8, 0, 8, 8⟩, 100⟩],
        [⟨"walk", rangeIncl 0 1⟩], "m", ⟨0, 0⟩⟩ : WLModel).animations ≠ [] ∧
      modelInvariant ⟨[⟨⟨0, 0, 8, 8⟩, 100⟩, ⟨⟨8, 0, 8, 8⟩, 100⟩],
        [⟨"walk", rangeIncl 0 1⟩], "m", ⟨0, 0⟩⟩) ∧
    modelInvariant (gen_wl_model_from_png "p" 2 3) :=
  ⟨⟨(claim3_amended.1 ⟨[⟨⟨0, 0, 8, 8⟩, 100⟩, ⟨⟨8, 0, 8, 8⟩, 100⟩],
        ⟨"i.png", [⟨"a_walk", 0, 1⟩]⟩⟩ "m" ⟨0, 0⟩ _ rfl).1,
    (claim3_amended.1 ⟨[⟨⟨0, 0, 8, 8⟩, 100⟩, ⟨⟨8, 0, 8, 8⟩, 100⟩],
        ⟨"i.png", [⟨"a_walk", 0, 1⟩]⟩⟩ "m" ⟨0, 0⟩ _ rfl).2
      (by decide) (by decide)⟩,
   claim3_amended.2 "p" 2 3⟩

/-- C4 fails on the code for `from > to`: the collected range is empty,
so no endpoint can be re-derived from the emitted sequence. -/
theorem claim4_counterexample :
    gen_wl_model_from_ase_data ⟨[], ⟨"i.png", [⟨"a_x", 1, 0⟩]⟩⟩ "m" ⟨0, 0⟩ =
      Except.ok ⟨[], [⟨"x", rangeIncl 1 0⟩], "m", ⟨0, 0⟩⟩ ∧
    rangeIncl 1 0 = [] ∧
    (rangeIncl 1 0).head? ≠ some 1 :=
  ⟨rfl, rfl, by decide⟩

/-- C4 (amended): for a qualifying tag over `{from := a, to := b}` with
`a ≤ b`, the emitted animation's frame sequence is the ascending
inclusive range from `a` to `b` — correct length, `i`-th element
`a + i` — and the endpoints round-trip: its first element is `a` and
its last is `b`. -/
theorem claim4_tag_range_roundtrip (nm : String) (a b : Nat)
    (frames : List AsepriteDataFrame) (img mid : String) (ap : Point)
    (hnm : marksAnim nm = true) (hab : a ≤ b) :
    ∃ m, gen_wl_model_from_ase_data ⟨frames, ⟨img, [⟨nm, a, b⟩]⟩⟩ mid ap =
        Except.ok m ∧
      m.animations =
        [ { animation_id := String.mk (nm.data.drop 2), frames := rangeIncl a b } ] ∧
      (rangeIncl a b).length = b + 1 - a ∧
      (∀ i : Nat, i < b + 1 - a → (rangeIncl a b).getD i 0 = a + i) ∧
      (rangeIncl a b).head? = some a ∧
      (rangeIncl a b).getLast? = some b := by
  have ht : tagAnims [⟨nm, a, b⟩] =
      [ { animation_id := String.mk (nm.data.drop 2), frames := rangeIncl a b } ] := by
    rw [@tagAnims_cons_of_marks ⟨nm, a, b⟩ [] hnm, tagAnims_nil]
  have hba : b + 1 - a = (b - a) + 1 := by omega
  refine ⟨_, @gen_ase_tags ⟨frames, ⟨img, [⟨nm, a, b⟩]⟩⟩ mid ap (by simp [ht]),
    ht, by simp [rangeIncl], ?_, ?_, ?_⟩
  · intro i hi
    have hi' : i < (rangeIncl a b).length := by simp [rangeIncl]; omega
    rw [List.getD_eq_getElem _ _ hi']
    simp only [rangeIncl] at hi' ⊢
    rw [List.getElem_range']
    omega
  · simp only [rangeIncl]
    rw [hba, List.range'_succ]
    rfl
  · simp only [rangeIncl]
    rw [hba, List.range'_concat, List.getLast?_concat]
    congr 1
    omega

theorem claim4_witness :
    marksAnim "a_walk" = true ∧ (0 : Nat) ≤ 3 ∧
    (∃ m, gen_wl_model_from_ase_data
        ⟨[], ⟨"i.png", [⟨"a_walk", 0, 3⟩]⟩⟩ "m" ⟨0, 0⟩ = Except.ok m ∧
      m.animations =
        [ { animation_id := String.mk ("a_walk".data.drop 2)
            frames := rangeIncl 0 3 } ] ∧
      (rangeIncl 0 3).length = 3 + 1 - 0 ∧
      (∀ i : Nat, i < 3 + 1 - 0 → (rangeIncl 0 3).getD i 0 = 0 + i) ∧
      (rangeIncl 0 3).head? = some 0 ∧
      (rangeIncl 0 3).getLast? = some 3) :=
  ⟨by decide, by decide,
   claim4_tag_range_roundtrip "a_walk" 0 3 [] "i.png" "m" ⟨0, 0⟩
     (by decide) (by decide)⟩

/-- C5 fails as a universal statement: with zero qualifying tags and one
source frame the normalizer still emits one fallback animation, so the
emitted animation count (1) differs from the qualifying-tag count (0). -/
theorem claim5_counterexample :
    gen_wl_model_from_ase_data ⟨[⟨⟨0, 0, 8, 8⟩, 100⟩], ⟨"i.png", []⟩⟩ "m" ⟨0, 0⟩ =
      Except.ok ⟨[⟨⟨0, 0, 8, 8⟩, 100⟩], [⟨"idle", [0]⟩], "m", ⟨0, 0⟩⟩ ∧
    (([] : List AsepriteFrameTag).filter (fun t => marksAnim t.name)).length = 0 ∧
    ([(⟨"idle", [0]⟩ : WLAnimation)].length ≠ 0) :=
  ⟨rfl, rfl, by decide⟩

/-- C5 (amended): whenever at least one tag qualifies, the emitted
animation list has exactly one animation per qualifying tag, in tag
order, each identified by the tag's name with the marker stripped;
non-qualifying tags contribute nothing.  (With zero qualifying tags the
output is instead the single fallback `"idle"` animation or an error.) -/
theorem claim5_qualifying_tags (ase : AsepriteDataFile) (mid : String) (ap : Point)
    (hq : ase.meta.tags.filter (fun t => marksAnim t.name) ≠ []) :
    ∃ m, gen_wl_model_from_ase_data ase mid ap = Except.ok m ∧
      m.animations.length =
        (ase.meta.tags.filter (fun t => marksAnim t.name)).length ∧
      m.animations.map (fun a => a.animation_id) =
        (ase.meta.tags.filter (fun t => marksAnim t.name)).map
          (fun t => String.mk (t.name.data.drop 2)) := by
  have h1 : tagAnims ase.meta.tags ≠ [] := by
    intro hcon
    refine hq (List.filter_eq_nil_iff.mpr (fun t ht => ?_))
    simp [tagAnims_eq_nil_iff.mp hcon t ht]
  exact ⟨_, gen_ase_tags h1, tagAnims_length, tagAnims_ids⟩

theorem claim5_witness :
    ((⟨"i.png", [⟨"a_walk", 0, 1⟩, ⟨"meta", 0, 0⟩, ⟨"a_run", 2, 3⟩]⟩ :
        AsepriteDataMeta).tags.filter (fun t => marksAnim t.name) ≠ []) ∧
    ∃ m, gen_wl_model_from_ase_data
        ⟨[], ⟨"i.png", [⟨"a_walk", 0, 1⟩, ⟨"meta", 0, 0⟩, ⟨"a_run", 2, 3⟩]⟩⟩
        "m" ⟨0, 0⟩ = Except.ok m ∧
      m.animations.length =
        ((⟨"i.png", [⟨"a_walk", 0, 1⟩, ⟨"meta", 0, 0⟩, ⟨"a_run", 2, 3⟩]⟩ :
          AsepriteDataMeta).tags.filter (fun t => marksAnim t.name)).length ∧
      m.animations.map (fun a => a.animation_id) =
        ((⟨"i.png", [⟨"a_walk", 0, 1⟩, ⟨"meta", 0, 0⟩, ⟨"a_run", 2, 3⟩]⟩ :
          AsepriteDataMeta).tags.filter (fun t => marksAnim t.name)).map
          (fun t => String.mk (t.name.data.drop 2)) :=
  ⟨by decide,
   claim5_qualifying_tags
     ⟨[], ⟨"i.png", [⟨"a_walk", 0, 1⟩, ⟨"meta", 0, 0⟩, ⟨"a_run", 2, 3⟩]⟩⟩
     "m" ⟨0, 0⟩ (by decide)⟩

end RedShade
